import Mathlib

/-!
Verification of the PrettyTrees branch-generation and rendering core.

The Python source (`main.py`) is shallowly embedded below over exact real
arithmetic (`ℝ`).  Python `float` operations are idealized as real
operations; a Python division that would raise `ZeroDivisionError` is
modelled by an `Option`-valued function returning `none`.  The process-wide
random generator is modelled by explicit sample values: `random.random()`
becomes a real number `u` with `0 ≤ u < 1`, `random.randint(lo, hi)`
becomes a natural number `n` with `lo ≤ n ≤ hi`, and the recursive tree
construction performed by `Branch.__init__` / `Branch._recurse` becomes the
relation `Generated`, which holds of exactly those branch trees the
constructor can produce for some sequence of random draws.
-/

namespace PrettyTrees

noncomputable section

/-- `random.random() * (max_val - min_val) + min_val`, with the value `u`
drawn by `random.random()` made an explicit argument. -/
def rand_sample_between (u min_val max_val : ℝ) : ℝ :=
  u * (max_val - min_val) + min_val

/-- `class Point`: a 2D point with real coordinates. -/
structure Point where
  x : ℝ
  y : ℝ

/-- `Point.transform`: move `dist` in the `rotation` direction. -/
def Point.transform (p : Point) (dist rotation : ℝ) : Point :=
  ⟨dist * Real.cos rotation + p.x, dist * Real.sin rotation + p.y⟩

/-- `Point.to_tuple`. -/
def Point.to_tuple (p : Point) : ℝ × ℝ :=
  (p.x, p.y)

/-- `class Color`: RGBA color.  Every color the program constructs has
integer channels (literals in `main`, or outputs of `Color.cap`). -/
structure Color where
  r : ℤ
  g : ℤ
  b : ℤ
  a : ℤ

/-- `Color.cap`: `int(max(0, min(val, 255)))`.  The argument of `int` is
nonnegative here, so Python's truncation toward zero agrees with `⌊·⌋`. -/
def Color.cap (val : ℝ) : ℤ :=
  ⌊max 0 (min val 255)⌋

/-- `Color.change_magnitude`: scale r, g, b by `max(0, 1 + mag)` and cap. -/
def Color.change_magnitude (c : Color) (mag : ℝ) : Color :=
  let mult : ℝ := max 0 (1 + mag)
  ⟨Color.cap (c.r * mult), Color.cap (c.g * mult), Color.cap (c.b * mult), c.a⟩

/-- `class Config`: the immutable generation parameters. -/
structure Config where
  thickness_decay : ℝ
  mid_thickness_multiplier : ℝ
  branch_color : Color
  num_child_range : ℕ × ℕ
  child_thickness_multiplier_range : ℝ × ℝ
  min_thickness : ℝ
  min_length : ℝ
  child_length_decay : ℝ × ℝ
  rotation_range : ℝ × ℝ
  depth_range : ℝ × ℝ
  curve_resolution : ℕ

/-- `class Circle`. -/
structure Circle where
  origin_x : ℝ
  origin_y : ℝ
  radius : ℝ

/-- `Circle.get_angle`: `atan((p.y - origin_y)/dx)` with a `+π` correction
when `dx < 0`.  The unguarded division by `dx = p.x - origin_x` raises
`ZeroDivisionError` in Python when `dx = 0`; that failure is `none` here. -/
def Circle.get_angle (c : Circle) (p : Point) : Option ℝ :=
  let dx := p.x - c.origin_x
  if dx = 0 then none
  else
    let ang := Real.arctan ((p.y - c.origin_y) / dx)
    some (if dx < 0 then ang + Real.pi else ang)

/-- `Circle.query`: the point of the circle at the given angle. -/
def Circle.query (c : Circle) (angle : ℝ) : ℝ × ℝ :=
  (c.origin_x + c.radius * Real.cos angle, c.origin_y + c.radius * Real.sin angle)

/-- `Circle.sample_points_between`: both endpoint angles are computed (and
can fail), `ang2` is wrapped by `+2π` when it is below `ang1`, and the
comprehension over `range(1, resolution)` samples `query` at equal angular
steps.  `i` runs over `1, …, resolution - 1`, written here as `i + 1` for
`i ∈ range (resolution - 1)`. -/
def Circle.sample_points_between (c : Circle) (p1 p2 : Point) (resolution : ℕ) :
    Option (List (ℝ × ℝ)) := do
  let ang1 ← c.get_angle p1
  let a ← c.get_angle p2
  let ang2 := if a < ang1 then a + Real.pi * 2 else a
  let dang := ang2 - ang1
  some (((List.range (resolution - 1)).map
    (fun i => c.query ((((i + 1 : ℕ) : ℝ) / (resolution : ℝ)) * dang + ang1))))

/-- `Circle.calculate_factor`. -/
def Circle.calculate_factor (p1 p2 : Point) : ℝ :=
  ((p1.x ^ 2 - p2.x ^ 2) + (p1.y ^ 2 - p2.y ^ 2)) / 2

/-- `Circle.from_3_points`: the circumscribed-circle construction.  The two
Python divisions that can raise `ZeroDivisionError` (by `p1.x - p2.x` and by
the origin_y denominator) are modelled as `none`. -/
def Circle.from_3_points (p1 p2 p3 : Point) : Option Circle :=
  let factor_12 := Circle.calculate_factor p1 p2
  let factor_13 := Circle.calculate_factor p1 p3
  if p1.x - p2.x = 0 then none
  else
    let dx_ratios := (p1.x - p3.x) / (p1.x - p2.x)
    let denom := p1.y - p3.y - dx_ratios * (p1.y - p2.y)
    if denom = 0 then none
    else
      let origin_y := (factor_13 - factor_12 * dx_ratios) / denom
      let origin_x := (factor_12 - (p1.y - p2.y) * origin_y) / (p1.x - p2.x)
      some ⟨origin_x, origin_y,
        Real.sqrt ((p1.x - origin_x) ^ 2 + (p1.y - origin_y) ^ 2)⟩

/-- Three points are collinear iff this cross product vanishes.  "Non-collinear"
in the spec is `¬ collinear`. -/
def collinear (p1 p2 p3 : Point) : Prop :=
  (p2.x - p1.x) * (p3.y - p1.y) - (p3.x - p1.x) * (p2.y - p1.y) = 0

/-- `class Branch`: constructor arguments, the three values precomputed by
`__init__`, and the recursively generated children. -/
inductive Branch where
  | mk (base_thickness length : ℝ) (starting_point : Point)
       (rotation depth : ℝ)
       (end_thickness mid_thickness : ℝ) (end_point : Point)
       (children : List Branch)

def Branch.base_thickness : Branch → ℝ
  | ⟨t, _, _, _, _, _, _, _, _⟩ => t

def Branch.length : Branch → ℝ
  | ⟨_, l, _, _, _, _, _, _, _⟩ => l

def Branch.starting_point : Branch → Point
  | ⟨_, _, sp, _, _, _, _, _, _⟩ => sp

def Branch.rotation : Branch → ℝ
  | ⟨_, _, _, r, _, _, _, _, _⟩ => r

def Branch.depth : Branch → ℝ
  | ⟨_, _, _, _, d, _, _, _, _⟩ => d

def Branch.end_thickness : Branch → ℝ
  | ⟨_, _, _, _, _, e, _, _, _⟩ => e

def Branch.mid_thickness : Branch → ℝ
  | ⟨_, _, _, _, _, _, m, _, _⟩ => m

def Branch.end_point : Branch → Point
  | ⟨_, _, _, _, _, _, _, ep, _⟩ => ep

def Branch.children : Branch → List Branch
  | ⟨_, _, _, _, _, _, _, _, ch⟩ => ch

/-- The three equations `Branch.__init__` establishes for its precomputed
values. -/
def DerivedOK (cfg : Config) (b : Branch) : Prop :=
  b.end_thickness = b.base_thickness * cfg.thickness_decay ∧
  b.mid_thickness = b.end_thickness * cfg.mid_thickness_multiplier ∧
  b.end_point = b.starting_point.transform b.length b.rotation

/-- How `Branch._recurse` builds one accepted child from its parent: the
candidate thickness is exactly the parent's `end_thickness` (the reserved
`child_thickness_multiplier_range` is not applied), the candidate length is
the parent's length times a `child_length_decay` sample, the candidate is
appended only when it passes both `>` threshold guards, and the accepted
child starts at the parent's `end_point` with sampled rotation and depth
offsets. -/
def ChildSpec (cfg : Config) (parent child : Branch) : Prop :=
  child.base_thickness = parent.end_thickness ∧
  (∃ u : ℝ, 0 ≤ u ∧ u < 1 ∧
    child.length = parent.length *
      rand_sample_between u cfg.child_length_decay.1 cfg.child_length_decay.2) ∧
  cfg.min_thickness < child.base_thickness ∧
  cfg.min_length < child.length ∧
  child.starting_point = parent.end_point ∧
  (∃ u : ℝ, 0 ≤ u ∧ u < 1 ∧
    child.rotation =
      rand_sample_between u cfg.rotation_range.1 cfg.rotation_range.2 + parent.rotation) ∧
  (∃ u : ℝ, 0 ≤ u ∧ u < 1 ∧
    child.depth =
      rand_sample_between u cfg.depth_range.1 cfg.depth_range.2 + parent.depth)

/-- The trees `Branch.__init__` can produce: the precomputed-value equations
hold, the number of candidate children was drawn from `num_child_range`
(accepted children are a subset of the candidates, so only the upper bound
survives), every accepted child satisfies `ChildSpec`, and every child is
itself such a tree. -/
inductive Generated (cfg : Config) : Branch → Prop where
  | mk (b : Branch)
      (hder : DerivedOK cfg b)
      (hnum : ∃ n : ℕ, cfg.num_child_range.1 ≤ n ∧ n ≤ cfg.num_child_range.2 ∧
        b.children.length ≤ n)
      (hchild : ∀ c ∈ b.children, ChildSpec cfg b c)
      (hgen : ∀ c ∈ b.children, Generated cfg c) :
      Generated cfg b

/-- `Branch._breadth_first_collect(self, [])` (despite its name a depth-first
preorder traversal): the branch itself followed by the collected subtrees of
its children, in order.  The Python accumulator argument always starts at
`[]` from `render`, so it is dropped here. -/
def Branch.collect : Branch → List Branch
  | b@⟨_, _, _, _, _, _, _, _, ch⟩ =>
    b :: (ch.attach.map (fun c => Branch.collect c.1)).flatten
termination_by b => sizeOf b
decreasing_by
  have := List.sizeOf_lt_of_mem c.2
  simp only [Branch.mk.sizeOf_spec]
  omega

/-- Number of branches in the tree. -/
def Branch.size : Branch → ℕ
  | ⟨_, _, _, _, _, _, _, _, ch⟩ =>
    1 + ((ch.attach.map (fun c => Branch.size c.1)).sum)
termination_by b => sizeOf b
decreasing_by
  have := List.sizeOf_lt_of_mem c.2
  simp only [Branch.mk.sizeOf_spec]
  omega

/-- Number of levels in the tree (1 for a leaf). -/
def Branch.height : Branch → ℕ
  | ⟨_, _, _, _, _, _, _, _, ch⟩ =>
    1 + ((ch.attach.map (fun c => Branch.height c.1)).foldr max 0)
termination_by b => sizeOf b
decreasing_by
  have := List.sizeOf_lt_of_mem c.2
  simp only [Branch.mk.sizeOf_spec]
  omega

/-- The comparison `sorted(..., key=lambda branch: -branch.depth)` sorts by:
`a` precedes `c` when `-a.depth ≤ -c.depth`, i.e. `c.depth ≤ a.depth`. -/
def depthGE (a c : Branch) : Prop :=
  c.depth ≤ a.depth

instance : DecidableRel depthGE :=
  fun a c => inferInstanceAs (Decidable (c.depth ≤ a.depth))

instance : IsTotal Branch depthGE :=
  ⟨fun a c => le_total c.depth a.depth⟩

instance : IsTrans Branch depthGE :=
  ⟨fun _ _ _ h1 h2 => le_trans h2 h1⟩

/-- The order in which `Branch.render` draws the collected branches. -/
def Branch.renderOrder (b : Branch) : List Branch :=
  List.insertionSort depthGE b.collect

/-- `Branch._render`: the six boundary points, the two fitted circles, and
the outline polygon.  Any `ZeroDivisionError` inside the circle fit or the
arc sampling is `none`. -/
def Branch.renderPolygon (cfg : Config) (b : Branch) : Option (List (ℝ × ℝ)) :=
  let base_rite := b.starting_point.transform (b.base_thickness / 2) (b.rotation - Real.pi / 2)
  let base_left := b.starting_point.transform (b.base_thickness / 2) (b.rotation + Real.pi / 2)
  let mid_point := b.starting_point.transform (b.length / 2) b.rotation
  let mid_left := mid_point.transform (b.mid_thickness / 2) (b.rotation + Real.pi / 2)
  let mid_rite := mid_point.transform (b.mid_thickness / 2) (b.rotation - Real.pi / 2)
  let tail_left := b.end_point.transform (b.end_thickness / 2) (b.rotation + Real.pi / 2)
  let tail_rite := b.end_point.transform (b.end_thickness / 2) (b.rotation - Real.pi / 2)
  do
    let left_circle ← Circle.from_3_points base_left mid_left tail_left
    let rite_circle ← Circle.from_3_points tail_rite mid_rite base_rite
    let sl ← left_circle.sample_points_between base_left tail_left cfg.curve_resolution
    let sr ← rite_circle.sample_points_between tail_rite base_rite cfg.curve_resolution
    some ([base_rite.to_tuple, base_left.to_tuple] ++ sl ++
      [tail_left.to_tuple, tail_rite.to_tuple] ++ sr)

/-- The `for branch in todo: branch._render(surface)` loop of
`Branch.render`, processed in list order.  Each iteration issues one draw
call `(polygon, color)`; an exception inside `_render` (a degenerate circle
fit or angle, `none` from `renderPolygon`) propagates with no handler, so
the whole render aborts — modelled fail-fast as `none`. -/
def renderLoop (cfg : Config) : List Branch → Option (List (List (ℝ × ℝ) × Color))
  | [] => some []
  | br :: rest =>
    match Branch.renderPolygon cfg br with
    | none => none
    | some poly =>
      match renderLoop cfg rest with
      | none => none
      | some calls => some ((poly, cfg.branch_color.change_magnitude br.depth) :: calls)

/-- `Branch.render`: sort the collected branches by descending depth, then
run the draw loop, failing fast if any branch's `_render` raises. -/
def Branch.render (cfg : Config) (b : Branch) : Option (List (List (ℝ × ℝ) × Color)) :=
  renderLoop cfg b.renderOrder

/-- The wrapped second angle of `sample_points_between`: `ang2 + 2π` when
`ang2 < ang1`, else `ang2`. -/
def wrapAngle (a1 a2 : ℝ) : ℝ :=
  if a2 < a1 then a2 + Real.pi * 2 else a2

/-- The angular position of the `i`-th sampled point (0-based over the
`resolution - 1` interior samples): `(i+1)/resolution` of the way from
`ang1` to the wrapped `ang2`. -/
def sampleAngle (a1 a2 : ℝ) (res i : ℕ) : ℝ :=
  (((i + 1 : ℕ) : ℝ) / (res : ℝ)) * (wrapAngle a1 a2 - a1) + a1

/-- A concrete color, as constructed in `main`. -/
def exampleColor : Color := ⟨160, 0, 160, 0⟩

/-- A concrete `Config` (the literal values of `main`, except that
`num_child_range = (0, 0)` so that a childless tree is generated). -/
def exampleCfg : Config :=
  ⟨0.8, 0.8, exampleColor, (0, 0), (0.6, 0.75), 1, 10, (0.8, 0.95), (0, 0), (0, 0), 20⟩

/-- A concrete leaf branch consistent with `exampleCfg` (base 20, length
100, rotation 0): its precomputed fields are 20·0.8 = 16, 16·0.8 = 12.8 and
end point (600 + 100, 0). -/
def exampleLeaf : Branch :=
  Branch.mk 20 100 ⟨600, 0⟩ 0 0 16 12.8 ⟨700, 0⟩ []

/-- A concrete leaf branch with `end_thickness = 0.8 ≤ min_thickness`. -/
def exampleSmall : Branch :=
  Branch.mk 1 100 ⟨0, 0⟩ 0 0 0.8 0.64 ⟨100, 0⟩ []

/-- A concrete `Config` for outline rendering: decay 0.5, mid multiplier 1,
curve resolution 1. -/
def exampleCfg6 : Config :=
  ⟨0.5, 1, exampleColor, (0, 0), (0.6, 0.75), 0.5, 1, (0.8, 0.95), (0, 0), (0, 0), 1⟩

/-- A concrete leaf branch consistent with `exampleCfg6`: base 2, length 2,
rotation 0, end thickness 1, mid thickness 1, end point (2, 0). -/
def exampleBranch6 : Branch :=
  Branch.mk 2 2 ⟨0, 0⟩ 0 0 1 1 ⟨2, 0⟩ []

/-- A degenerate leaf branch consistent with `exampleCfg6`: zero thickness
everywhere, so its six boundary points are collinear on the centerline and
the circle fit divides by zero. -/
def exampleBranch7 : Branch :=
  Branch.mk 0 2 ⟨0, 0⟩ 0 0 0 0 ⟨2, 0⟩ []

end

/-! ### Helper lemmas about `Color.cap` -/

theorem Color.cap_nonneg (v : ℝ) : 0 ≤ Color.cap v := by
  unfold Color.cap
  exact Int.le_floor.mpr (by simp)

theorem Color.cap_le_255 (v : ℝ) : Color.cap v ≤ 255 := by
  unfold Color.cap
  have h : max 0 (min v 255) ≤ (255 : ℝ) :=
    max_le (by norm_num) (min_le_right _ _)
  calc ⌊max 0 (min v 255)⌋ ≤ ⌊(255 : ℝ)⌋ := Int.floor_le_floor h
    _ = 255 := by norm_num

theorem Color.cap_intCast (z : ℤ) (h0 : 0 ≤ z) (h255 : z ≤ 255) :
    Color.cap (z : ℝ) = z := by
  unfold Color.cap
  rw [min_eq_left (by exact_mod_cast h255), max_eq_right (by exact_mod_cast h0),
    Int.floor_intCast]

/-- C8: `change_magnitude 0` is the identity on any color with channels in
[0, 255] (the spec's data model for `Color`), `change_magnitude (-1)` makes
r = g = b = 0 regardless of input while leaving alpha unchanged, and for
every amount all three output channels lie in [0, 255]. -/
theorem claim8_change_magnitude (c : Color) (m : ℝ) :
    (0 ≤ c.r → c.r ≤ 255 → 0 ≤ c.g → c.g ≤ 255 → 0 ≤ c.b → c.b ≤ 255 →
      c.change_magnitude 0 = c) ∧
    ((c.change_magnitude (-1)).r = 0 ∧ (c.change_magnitude (-1)).g = 0 ∧
      (c.change_magnitude (-1)).b = 0 ∧ (c.change_magnitude (-1)).a = c.a) ∧
    (0 ≤ (c.change_magnitude m).r ∧ (c.change_magnitude m).r ≤ 255 ∧
      0 ≤ (c.change_magnitude m).g ∧ (c.change_magnitude m).g ≤ 255 ∧
      0 ≤ (c.change_magnitude m).b ∧ (c.change_magnitude m).b ≤ 255) := by
  refine ⟨?_, ?_, ?_⟩
  · intro hr0 hr1 hg0 hg1 hb0 hb1
    have hm : max (0 : ℝ) (1 + 0) = 1 := by norm_num
    cases c with
    | mk r g b a =>
      simp only [Color.change_magnitude, hm, mul_one]
      rw [Color.cap_intCast r hr0 hr1, Color.cap_intCast g hg0 hg1,
        Color.cap_intCast b hb0 hb1]
  · have hm : max (0 : ℝ) (1 + -1) = 0 := by norm_num
    have hcap0 : Color.cap 0 = 0 := by unfold Color.cap; norm_num
    cases c with
    | mk r g b a =>
      refine ⟨?_, ?_, ?_, ?_⟩ <;> simp [Color.change_magnitude, hm, hcap0]
  · exact ⟨Color.cap_nonneg _, Color.cap_le_255 _, Color.cap_nonneg _,
      Color.cap_le_255 _, Color.cap_nonneg _, Color.cap_le_255 _⟩

/-- Witness for C8 at the concrete color (160, 0, 160, 0) and amount 2. -/
theorem claim8_witness :
    ((0 : ℤ) ≤ 160 ∧ (160 : ℤ) ≤ 255) ∧
    (Color.mk 160 0 160 0).change_magnitude 0 = Color.mk 160 0 160 0 ∧
    ((Color.mk 160 0 160 0).change_magnitude (-1)).r = 0 ∧
    0 ≤ ((Color.mk 160 0 160 0).change_magnitude 2).r ∧
    ((Color.mk 160 0 160 0).change_magnitude 2).r ≤ 255 :=
  ⟨⟨by norm_num, by norm_num⟩,
    (claim8_change_magnitude (Color.mk 160 0 160 0) 2).1 (by norm_num) (by norm_num)
      (by norm_num) (by norm_num) (by norm_num) (by norm_num),
    (claim8_change_magnitude (Color.mk 160 0 160 0) 2).2.1.1,
    (claim8_change_magnitude (Color.mk 160 0 160 0) 2).2.2.1,
    (claim8_change_magnitude (Color.mk 160 0 160 0) 2).2.2.2.1⟩

/-! ### C10: partiality of `get_angle` and `sample_points_between` -/

/-- C10: `get_angle` divides by `dx = p.x - origin_x` with no guard, so it
fails exactly when the point is vertically aligned with the circle's origin;
consequently `sample_points_between` fails whenever either endpoint is so
aligned. -/
theorem claim10_get_angle_domain (c : Circle) (p p1 p2 : Point) (res : ℕ) :
    (c.get_angle p = none ↔ p.x = c.origin_x) ∧
    ((p1.x = c.origin_x ∨ p2.x = c.origin_x) →
      c.sample_points_between p1 p2 res = none) := by
  have key : ∀ q : Point, c.get_angle q = none ↔ q.x = c.origin_x := by
    intro q
    by_cases hq : q.x - c.origin_x = 0
    · constructor
      · intro _
        exact sub_eq_zero.mp hq
      · intro _
        simp [Circle.get_angle, hq]
    · constructor
      · intro hnone
        exfalso
        simp [Circle.get_angle, hq] at hnone
      · intro hxq
        exact (hq (sub_eq_zero.mpr hxq)).elim
  refine ⟨key p, ?_⟩
  rintro (h1 | h2)
  · have : c.get_angle p1 = none := (key p1).mpr h1
    unfold Circle.sample_points_between
    rw [this]
    rfl
  · have h2n : c.get_angle p2 = none := (key p2).mpr h2
    unfold Circle.sample_points_between
    cases h1 : c.get_angle p1 with
    | none => rfl
    | some a1 => rw [h2n]; rfl

/-- Witness for C10: the unit circle at the origin and points on / off its
vertical axis. -/
theorem claim10_witness :
    (Circle.mk 0 0 1).get_angle ⟨0, 5⟩ = none ∧
    (Circle.mk 0 0 1).sample_points_between ⟨0, 5⟩ ⟨1, 0⟩ 3 = none :=
  ⟨(claim10_get_angle_domain (Circle.mk 0 0 1) ⟨0, 5⟩ ⟨0, 5⟩ ⟨1, 0⟩ 3).1.mpr (by norm_num),
    (claim10_get_angle_domain (Circle.mk 0 0 1) ⟨0, 5⟩ ⟨0, 5⟩ ⟨1, 0⟩ 3).2
      (Or.inl (by norm_num))⟩

/-! ### C1: the circumscribed-circle construction -/

/-- Counterexample to C1 as stated: the triple ((0,0), (0,1), (1,0)) is
non-collinear, yet `from_3_points` fails on it (`ZeroDivisionError` in
Python, `none` here), because `p1.x = p2.x`.  So the claim does not hold
for every non-collinear triple. -/
theorem claim1_counterexample :
    ¬ collinear ⟨0, 0⟩ ⟨0, 1⟩ ⟨1, 0⟩ ∧
    Circle.from_3_points ⟨0, 0⟩ ⟨0, 1⟩ ⟨1, 0⟩ = none := by
  constructor
  · unfold collinear
    norm_num
  · unfold Circle.from_3_points
    norm_num

/-- C1 (amended): for every non-collinear triple with `p1.x ≠ p2.x`,
`from_3_points` succeeds and returns a circle whose origin is equidistant
from all three points, the common distance being the returned radius. -/
theorem claim1_from_3_points (p1 p2 p3 : Point)
    (hx : p1.x ≠ p2.x) (hnc : ¬ collinear p1 p2 p3) :
    ∃ c : Circle, Circle.from_3_points p1 p2 p3 = some c ∧
      Real.sqrt ((p1.x - c.origin_x) ^ 2 + (p1.y - c.origin_y) ^ 2) = c.radius ∧
      Real.sqrt ((p2.x - c.origin_x) ^ 2 + (p2.y - c.origin_y) ^ 2) = c.radius ∧
      Real.sqrt ((p3.x - c.origin_x) ^ 2 + (p3.y - c.origin_y) ^ 2) = c.radius := by
  have hA : p1.x - p2.x ≠ 0 := sub_ne_zero.mpr hx
  set f12 : ℝ := ((p1.x ^ 2 - p2.x ^ 2) + (p1.y ^ 2 - p2.y ^ 2)) / 2 with hf12
  set f13 : ℝ := ((p1.x ^ 2 - p3.x ^ 2) + (p1.y ^ 2 - p3.y ^ 2)) / 2 with hf13
  set dxr : ℝ := (p1.x - p3.x) / (p1.x - p2.x) with hdxr_def
  have hdxr : dxr * (p1.x - p2.x) = p1.x - p3.x := div_mul_cancel₀ _ hA
  set denom : ℝ := p1.y - p3.y - dxr * (p1.y - p2.y) with hden_def
  have hKd : denom * (p1.x - p2.x) =
      (p2.x - p1.x) * (p3.y - p1.y) - (p3.x - p1.x) * (p2.y - p1.y) := by
    rw [hden_def]
    linear_combination (-(p1.y - p2.y)) * hdxr
  have hd : denom ≠ 0 := by
    intro h0
    apply hnc
    unfold collinear
    have := hKd
    rw [h0, zero_mul] at this
    exact this.symm
  set OY : ℝ := (f13 - f12 * dxr) / denom with hOY_def
  set OX : ℝ := (f12 - (p1.y - p2.y) * OY) / (p1.x - p2.x) with hOX_def
  have hOY : OY * denom = f13 - f12 * dxr := div_mul_cancel₀ _ hd
  have hOX : OX * (p1.x - p2.x) = f12 - (p1.y - p2.y) * OY := div_mul_cancel₀ _ hA
  have e : Circle.from_3_points p1 p2 p3 =
      some ⟨OX, OY, Real.sqrt ((p1.x - OX) ^ 2 + (p1.y - OY) ^ 2)⟩ := by
    simp only [Circle.from_3_points, Circle.calculate_factor]
    rw [if_neg hA, if_neg (by rw [← hdxr_def, ← hden_def]; exact hd)]
  have h2 : (p2.x - OX) ^ 2 + (p2.y - OY) ^ 2 = (p1.x - OX) ^ 2 + (p1.y - OY) ^ 2 := by
    rw [hf12] at hOX
    linear_combination 2 * hOX
  have h3 : (p3.x - OX) ^ 2 + (p3.y - OY) ^ 2 = (p1.x - OX) ^ 2 + (p1.y - OY) ^ 2 := by
    rw [hf12] at hOX
    rw [hf13, hf12] at hOY
    rw [hden_def] at hOY
    linear_combination (-2) * OX * hdxr + 2 * dxr * hOX + 2 * hOY
  exact ⟨⟨OX, OY, Real.sqrt ((p1.x - OX) ^ 2 + (p1.y - OY) ^ 2)⟩, e, rfl,
    by rw [show (p2.x - OX) ^ 2 + (p2.y - OY) ^ 2 = (p1.x - OX) ^ 2 + (p1.y - OY) ^ 2 from h2],
    by rw [show (p3.x - OX) ^ 2 + (p3.y - OY) ^ 2 = (p1.x - OX) ^ 2 + (p1.y - OY) ^ 2 from h3]⟩

/-- Witness for C1 at the concrete non-collinear triple (0,0), (2,0), (1,1)
with distinct first x-coordinates. -/
theorem claim1_witness :
    (Point.mk 0 0).x ≠ (Point.mk 2 0).x ∧
    ¬ collinear ⟨0, 0⟩ ⟨2, 0⟩ ⟨1, 1⟩ ∧
    ∃ c : Circle, Circle.from_3_points ⟨0, 0⟩ ⟨2, 0⟩ ⟨1, 1⟩ = some c ∧
      Real.sqrt (((0 : ℝ) - c.origin_x) ^ 2 + ((0 : ℝ) - c.origin_y) ^ 2) = c.radius ∧
      Real.sqrt (((2 : ℝ) - c.origin_x) ^ 2 + ((0 : ℝ) - c.origin_y) ^ 2) = c.radius ∧
      Real.sqrt (((1 : ℝ) - c.origin_x) ^ 2 + ((1 : ℝ) - c.origin_y) ^ 2) = c.radius := by
  refine ⟨by norm_num, by unfold collinear; norm_num, ?_⟩
  exact claim1_from_3_points ⟨0, 0⟩ ⟨2, 0⟩ ⟨1, 1⟩ (by norm_num)
    (by unfold collinear; norm_num)

/-! ### Helper lemmas about `query`, `get_angle`, `sample_points_between` -/

theorem Circle.query_dist (c : Circle) (θ : ℝ) :
    ((c.query θ).1 - c.origin_x) ^ 2 + ((c.query θ).2 - c.origin_y) ^ 2 = c.radius ^ 2 := by
  simp only [Circle.query]
  linear_combination (c.radius ^ 2) * Real.sin_sq_add_cos_sq θ

theorem Circle.get_angle_eq_some {c : Circle} {p : Point} {a : ℝ}
    (h : c.get_angle p = some a) :
    p.x - c.origin_x ≠ 0 ∧
      a = (if p.x - c.origin_x < 0 then
        Real.arctan ((p.y - c.origin_y) / (p.x - c.origin_x)) + Real.pi
      else Real.arctan ((p.y - c.origin_y) / (p.x - c.origin_x))) := by
  by_cases hq : p.x - c.origin_x = 0
  · simp [Circle.get_angle, hq] at h
  · simp only [Circle.get_angle, hq, if_false, Option.some.injEq] at h
    exact ⟨hq, h.symm⟩

theorem Circle.get_angle_bounds {c : Circle} {p : Point} {a : ℝ}
    (h : c.get_angle p = some a) :
    -(Real.pi / 2) < a ∧ a < 3 * (Real.pi / 2) := by
  obtain ⟨hdx, ha⟩ := Circle.get_angle_eq_some h
  rw [ha]
  split
  · constructor
    · have := Real.neg_pi_div_two_lt_arctan ((p.y - c.origin_y) / (p.x - c.origin_x))
      have hpi := Real.pi_pos
      linarith
    · have := Real.arctan_lt_pi_div_two ((p.y - c.origin_y) / (p.x - c.origin_x))
      linarith
  · constructor
    · exact Real.neg_pi_div_two_lt_arctan _
    · have := Real.arctan_lt_pi_div_two ((p.y - c.origin_y) / (p.x - c.origin_x))
      have hpi := Real.pi_pos
      linarith

theorem Circle.sample_points_eq {c : Circle} {p1 p2 : Point} {res : ℕ} {a1 a2 : ℝ}
    (h1 : c.get_angle p1 = some a1) (h2 : c.get_angle p2 = some a2) :
    c.sample_points_between p1 p2 res =
      some ((List.range (res - 1)).map (fun i => c.query (sampleAngle a1 a2 res i))) := by
  simp only [Circle.sample_points_between, h1, h2, Option.bind_eq_bind,
    Option.some_bind, Option.some.injEq]
  unfold sampleAngle wrapAngle
  rfl

/-- The wrapped angular span is positive as soon as the two angles come from
`get_angle` and differ. -/
theorem wrapAngle_sub_pos {c : Circle} {p1 p2 : Point} {a1 a2 : ℝ}
    (h1 : c.get_angle p1 = some a1) (h2 : c.get_angle p2 = some a2)
    (hne : a1 ≠ a2) : 0 < wrapAngle a1 a2 - a1 := by
  obtain ⟨hlo1, hhi1⟩ := Circle.get_angle_bounds h1
  obtain ⟨hlo2, hhi2⟩ := Circle.get_angle_bounds h2
  unfold wrapAngle
  split
  · linarith
  · rename_i hge
    have : a1 ≤ a2 := le_of_not_lt hge
    have : a1 < a2 := lt_of_le_of_ne this hne
    linarith

/-! ### C2: interior arc samples -/

/-- Counterexample to C2 as stated: on the unit circle at the origin, the
points (1,0) and (2,0) both have angle 0, so with resolution 2 the single
returned sample sits at angle 0 — there is no angle strictly between
`ang1 = 0` and the wrapped `ang2 = 0`, yet a point is returned.  The claim's
"strictly between" clause therefore fails when the two angles coincide. -/
theorem claim2_counterexample :
    (Circle.mk 0 0 1).get_angle ⟨1, 0⟩ = some 0 ∧
    (Circle.mk 0 0 1).get_angle ⟨2, 0⟩ = some 0 ∧
    wrapAngle 0 0 = 0 ∧
    (Circle.mk 0 0 1).sample_points_between ⟨1, 0⟩ ⟨2, 0⟩ 2 = some [(1, 0)] ∧
    ¬ ∃ a : ℝ, 0 < a ∧ a < wrapAngle 0 0 := by
  have h1 : (Circle.mk 0 0 1).get_angle ⟨1, 0⟩ = some 0 := by
    simp [Circle.get_angle, Real.arctan_zero]
  have h2 : (Circle.mk 0 0 1).get_angle ⟨2, 0⟩ = some 0 := by
    simp [Circle.get_angle, Real.arctan_zero]
  have hw : wrapAngle (0 : ℝ) 0 = 0 := by simp [wrapAngle]
  refine ⟨h1, h2, hw, ?_, ?_⟩
  · rw [Circle.sample_points_eq h1 h2]
    simp [sampleAngle, hw, Circle.query]
  · rintro ⟨a, ha0, ha1⟩
    rw [hw] at ha1
    linarith

/-- C2 (amended): whenever both endpoint angles are defined, the resolution
is at least 1, **and the two angles differ** (`dang > 0`), the call returns
exactly `resolution - 1` points, each on the circle (squared-distance form),
at the sample angles, which progress strictly monotonically and lie strictly
between `ang1` and the wrapped `ang2`. -/
theorem claim2_sample_points (c : Circle) (p1 p2 : Point) (res : ℕ) (a1 a2 : ℝ)
    (h1 : c.get_angle p1 = some a1) (h2 : c.get_angle p2 = some a2)
    (hne : a1 ≠ a2) (hres : 1 ≤ res) :
    ∃ l : List (ℝ × ℝ),
      c.sample_points_between p1 p2 res = some l ∧
      l.length = res - 1 ∧
      l = (List.range (res - 1)).map (fun i => c.query (sampleAngle a1 a2 res i)) ∧
      (∀ q ∈ l, (q.1 - c.origin_x) ^ 2 + (q.2 - c.origin_y) ^ 2 = c.radius ^ 2) ∧
      (∀ i, i < res - 1 →
        a1 < sampleAngle a1 a2 res i ∧ sampleAngle a1 a2 res i < wrapAngle a1 a2) ∧
      (∀ i j, i < j → j < res - 1 →
        sampleAngle a1 a2 res i < sampleAngle a1 a2 res j) := by
  have hdang : 0 < wrapAngle a1 a2 - a1 := wrapAngle_sub_pos h1 h2 hne
  have hres0 : 0 < (res : ℝ) := by exact_mod_cast Nat.lt_of_lt_of_le Nat.zero_lt_one hres
  refine ⟨_, Circle.sample_points_eq h1 h2, ?_, rfl, ?_, ?_, ?_⟩
  · simp
  · intro q hq
    rw [List.mem_map] at hq
    obtain ⟨i, _, rfl⟩ := hq
    exact Circle.query_dist c _
  · intro i hi
    have hi1 : ((i + 1 : ℕ) : ℝ) < (res : ℝ) := by
      have hn : i + 1 < res := by omega
      exact_mod_cast hn
    have hfrac0 : 0 < ((i + 1 : ℕ) : ℝ) / (res : ℝ) := by positivity
    have hfrac1 : ((i + 1 : ℕ) : ℝ) / (res : ℝ) < 1 :=
      (div_lt_one hres0).mpr hi1
    constructor
    · unfold sampleAngle
      nlinarith
    · unfold sampleAngle
      nlinarith
  · intro i j hij hj
    unfold sampleAngle
    have hij1 : ((i + 1 : ℕ) : ℝ) < ((j + 1 : ℕ) : ℝ) := by
      exact_mod_cast Nat.succ_lt_succ hij
    have hfrac : ((i + 1 : ℕ) : ℝ) / (res : ℝ) < ((j + 1 : ℕ) : ℝ) / (res : ℝ) :=
      (div_lt_div_iff_of_pos_right hres0).mpr hij1
    nlinarith

/-- Witness for C2 on the unit circle with p1 = (1,0) (angle 0) and
p2 = (-1,0) (angle π), resolution 2. -/
theorem claim2_witness :
    (Circle.mk 0 0 1).get_angle ⟨1, 0⟩ = some 0 ∧
    (Circle.mk 0 0 1).get_angle ⟨-1, 0⟩ = some Real.pi ∧
    (0 : ℝ) ≠ Real.pi ∧ 1 ≤ 2 ∧
    ∃ l, (Circle.mk 0 0 1).sample_points_between ⟨1, 0⟩ ⟨-1, 0⟩ 2 = some l ∧
      l.length = 2 - 1 := by
  have h1 : (Circle.mk 0 0 1).get_angle ⟨1, 0⟩ = some 0 := by
    simp [Circle.get_angle, Real.arctan_zero]
  have h2 : (Circle.mk 0 0 1).get_angle ⟨-1, 0⟩ = some Real.pi := by
    simp [Circle.get_angle, Real.arctan_zero]
  have hne : (0 : ℝ) ≠ Real.pi := Ne.symm Real.pi_ne_zero
  refine ⟨h1, h2, hne, by norm_num, ?_⟩
  obtain ⟨l, hl, hlen, _⟩ :=
    claim2_sample_points (Circle.mk 0 0 1) ⟨1, 0⟩ ⟨-1, 0⟩ 2 0 Real.pi h1 h2 hne
      (by norm_num)
  exact ⟨l, hl, hlen⟩

/-! ### C3: `query ∘ get_angle` round trip -/

theorem Circle.get_angle_some (c : Circle) (p : Point)
    (hdx : p.x - c.origin_x ≠ 0) :
    c.get_angle p = some (if p.x - c.origin_x < 0 then
      Real.arctan ((p.y - c.origin_y) / (p.x - c.origin_x)) + Real.pi
    else Real.arctan ((p.y - c.origin_y) / (p.x - c.origin_x))) := by
  simp [Circle.get_angle, hdx]

/-- C3: for a circle of positive radius and a point on it that is not
vertically aligned with the origin, `query (get_angle p)` reproduces `p`:
the two-quadrant `atan` plus the `+π` correction lands in the right
quadrant. -/
theorem claim3_query_roundtrip (c : Circle) (p : Point) (hr : 0 < c.radius)
    (hon : (p.x - c.origin_x) ^ 2 + (p.y - c.origin_y) ^ 2 = c.radius ^ 2)
    (hx : p.x ≠ c.origin_x) :
    ∃ a, c.get_angle p = some a ∧ c.query a = (p.x, p.y) := by
  have hdx : p.x - c.origin_x ≠ 0 := sub_ne_zero.mpr hx
  refine ⟨_, Circle.get_angle_some c p hdx, ?_⟩
  have habs : (0 : ℝ) < |p.x - c.origin_x| := abs_pos.mpr hdx
  have hkey : Real.sqrt (1 + ((p.y - c.origin_y) / (p.x - c.origin_x)) ^ 2) =
      c.radius / |p.x - c.origin_x| := by
    have h1 : 1 + ((p.y - c.origin_y) / (p.x - c.origin_x)) ^ 2 =
        (c.radius / |p.x - c.origin_x|) ^ 2 := by
      rw [div_pow, div_pow, sq_abs, eq_div_iff (pow_ne_zero 2 hdx)]
      field_simp
      linear_combination hon
    rw [h1, Real.sqrt_sq (by positivity)]
  have hcos : Real.cos (Real.arctan ((p.y - c.origin_y) / (p.x - c.origin_x))) =
      |p.x - c.origin_x| / c.radius := by
    rw [Real.cos_arctan, hkey, one_div_div]
  have hsin : Real.sin (Real.arctan ((p.y - c.origin_y) / (p.x - c.origin_x))) =
      (p.y - c.origin_y) * |p.x - c.origin_x| / ((p.x - c.origin_x) * c.radius) := by
    rw [Real.sin_arctan, hkey]
    rw [div_div_div_eq]
  split
  · rename_i hneg
    have habs2 : |p.x - c.origin_x| = -(p.x - c.origin_x) := abs_of_neg hneg
    unfold Circle.query
    rw [Real.cos_add_pi, Real.sin_add_pi, hcos, hsin, habs2]
    rw [Prod.mk.injEq]
    constructor
    · field_simp
    · field_simp
      ring
  · rename_i hge
    have hpos : 0 < p.x - c.origin_x := hdx.lt_or_lt.resolve_left hge
    have habs2 : |p.x - c.origin_x| = p.x - c.origin_x := abs_of_pos hpos
    unfold Circle.query
    rw [hcos, hsin, habs2]
    rw [Prod.mk.injEq]
    constructor
    · field_simp
    · field_simp
      ring

/-- Witness for C3 on the unit circle at the origin and the point (1, 0). -/
theorem claim3_witness :
    (0 : ℝ) < 1 ∧
    (((1 : ℝ) - 0) ^ 2 + ((0 : ℝ) - 0) ^ 2 = 1 ^ 2) ∧
    (1 : ℝ) ≠ 0 ∧
    ∃ a, (Circle.mk 0 0 1).get_angle ⟨1, 0⟩ = some a ∧
      (Circle.mk 0 0 1).query a = (1, 0) := by
  refine ⟨by norm_num, by norm_num, by norm_num, ?_⟩
  exact claim3_query_roundtrip (Circle.mk 0 0 1) ⟨1, 0⟩ (by norm_num) (by norm_num)
    (by norm_num)

/-! ### Helper lemmas about `Branch` trees -/

theorem Branch.inductionOn (P : Branch → Prop)
    (step : ∀ t l sp r d e m ep ch, (∀ c ∈ ch, P c) →
      P (Branch.mk t l sp r d e m ep ch)) :
    ∀ b, P b
  | ⟨t, l, sp, r, d, e, m, ep, ch⟩ =>
    step t l sp r d e m ep ch (fun c _ => Branch.inductionOn P step c)
termination_by b => sizeOf b
decreasing_by
  rename_i hc
  have := List.sizeOf_lt_of_mem hc
  simp only [Branch.mk.sizeOf_spec]
  omega

theorem Branch.collect_eq (t l : ℝ) (sp : Point) (r d e m : ℝ) (ep : Point)
    (ch : List Branch) :
    (Branch.mk t l sp r d e m ep ch).collect =
      Branch.mk t l sp r d e m ep ch :: (ch.map Branch.collect).flatten := by
  rw [Branch.collect]
  congr 1
  rw [List.attach_map_coe]

theorem Branch.mem_collect_iff (b x : Branch) :
    x ∈ b.collect ↔ x = b ∨ ∃ c ∈ b.children, x ∈ c.collect := by
  cases b with
  | mk t l sp r d e m ep ch =>
    rw [Branch.collect_eq]
    simp only [Branch.children, List.mem_cons, List.mem_flatten, List.mem_map]
    constructor
    · rintro (rfl | ⟨L, ⟨c, hc, rfl⟩, hxL⟩)
      · exact Or.inl rfl
      · exact Or.inr ⟨c, hc, hxL⟩
    · rintro (rfl | ⟨c, hc, hxc⟩)
      · exact Or.inl rfl
      · exact Or.inr ⟨c.collect, ⟨c, hc, rfl⟩, hxc⟩

theorem Branch.collect_length (b : Branch) : b.collect.length = b.size := by
  induction b using Branch.inductionOn with
  | step t l sp r d e m ep ch ih =>
    rw [Branch.collect_eq, Branch.size, List.attach_map_coe]
    simp only [List.length_cons, List.length_flatten, List.map_map]
    have hmaps : ch.map (List.length ∘ Branch.collect) = ch.map Branch.size :=
      List.map_congr_left (fun c hc => ih c hc)
    rw [hmaps]
    omega

theorem Branch.height_eq (t l : ℝ) (sp : Point) (r d e m : ℝ) (ep : Point)
    (ch : List Branch) :
    (Branch.mk t l sp r d e m ep ch).height =
      1 + (ch.map Branch.height).foldr max 0 := by
  rw [Branch.height]
  congr 1
  rw [List.attach_map_coe]

theorem foldr_max_le {l : List ℕ} {n : ℕ} (h : ∀ x ∈ l, x ≤ n) :
    l.foldr max 0 ≤ n := by
  induction l with
  | nil => exact Nat.zero_le n
  | cons a t ih =>
    simp only [List.foldr_cons]
    exact max_le (h a (List.mem_cons_self a t))
      (ih (fun x hx => h x (List.mem_cons_of_mem a hx)))

theorem Branch.height_le_of_children {b : Branch} {n : ℕ}
    (h : ∀ c ∈ b.children, c.height ≤ n) : b.height ≤ n + 1 := by
  cases b with
  | mk t l sp r d e m ep ch =>
    rw [Branch.height_eq]
    simp only [Branch.children] at h
    have hb : (ch.map Branch.height).foldr max 0 ≤ n := by
      apply foldr_max_le
      intro x hx
      rw [List.mem_map] at hx
      obtain ⟨c, hc, rfl⟩ := hx
      exact h c hc
    omega

/-- Under the thickness-decay guard, a generated branch whose base thickness
shrinks below `min_thickness` after `n` more decay steps has height at most
`n`. -/
theorem generated_height_le (cfg : Config) :
    ∀ n : ℕ, 1 ≤ n → ∀ b : Branch, Generated cfg b →
      b.base_thickness * cfg.thickness_decay ^ n ≤ cfg.min_thickness →
      b.height ≤ n := by
  intro n
  induction n with
  | zero => intro h; exact absurd h (by omega)
  | succ k ih =>
    intro _ b hG hle
    obtain ⟨b, hder, hnum, hchild, hgen⟩ := hG
    obtain ⟨hend, _, _⟩ := hder
    apply Branch.height_le_of_children
    intro c hc
    obtain ⟨hcb, _, hminc, _, _, _, _⟩ := hchild c hc
    cases k with
    | zero =>
      exfalso
      rw [pow_one] at hle
      rw [hcb, hend] at hminc
      linarith
    | succ k2 =>
      apply ih (by omega) c (hgen c hc)
      rw [hcb, hend]
      calc b.base_thickness * cfg.thickness_decay * cfg.thickness_decay ^ (k2 + 1)
          = b.base_thickness * cfg.thickness_decay ^ (k2 + 1 + 1) := by ring
        _ ≤ cfg.min_thickness := hle

/-! ### C4: precomputed-field invariant over the whole tree -/

/-- C4: in every generated tree, every branch of the subtree (collected by
the renderer's traversal) satisfies the three precomputed-field equations.
In this functional embedding no operation mutates a constructed branch, so
the invariant established at construction persists. -/
theorem claim4_branch_invariant (cfg : Config) (b : Branch) (hG : Generated cfg b) :
    ∀ x ∈ b.collect,
      x.end_thickness = x.base_thickness * cfg.thickness_decay ∧
      x.mid_thickness = x.end_thickness * cfg.mid_thickness_multiplier ∧
      x.end_point = x.starting_point.transform x.length x.rotation := by
  induction hG with
  | mk b hder hnum hchild hgen ih =>
    intro x hx
    rcases (Branch.mem_collect_iff b x).mp hx with rfl | ⟨c, hc, hxc⟩
    · exact hder
    · exact ih c hc x hxc

/-! ### C5: child acceptance rules -/

/-- C5: every accepted child inherits the parent's `end_thickness` as its
base thickness (no extra multiplier) and the parent's `end_point` as its
starting point, and passed both strict threshold guards; consequently a
branch whose `end_thickness` is at most `min_thickness`, or whose every
candidate length is at most `min_length`, has no children. -/
theorem claim5_child_rules (cfg : Config) (b : Branch) (hG : Generated cfg b) :
    (∀ c ∈ b.children,
      c.base_thickness = b.end_thickness ∧
      c.starting_point = b.end_point ∧
      cfg.min_thickness < c.base_thickness ∧
      cfg.min_length < c.length) ∧
    (b.end_thickness ≤ cfg.min_thickness → b.children = []) ∧
    ((∀ u : ℝ, 0 ≤ u → u < 1 →
        b.length * rand_sample_between u cfg.child_length_decay.1 cfg.child_length_decay.2
          ≤ cfg.min_length) →
      b.children = []) := by
  obtain ⟨b, hder, hnum, hchild, hgen⟩ := hG
  refine ⟨?_, ?_, ?_⟩
  · intro c hc
    obtain ⟨h1, _, h3, h4, h5, _, _⟩ := hchild c hc
    exact ⟨h1, h5, h3, h4⟩
  · intro hle
    by_contra hne
    obtain ⟨c, hc⟩ := List.exists_mem_of_ne_nil _ hne
    obtain ⟨h1, _, h3, _, _, _, _⟩ := hchild c hc
    rw [h1] at h3
    linarith
  · intro hall
    by_contra hne
    obtain ⟨c, hc⟩ := List.exists_mem_of_ne_nil _ hne
    obtain ⟨_, ⟨u, hu0, hu1, hlen⟩, _, h4, _, _, _⟩ := hchild c hc
    have := hall u hu0 hu1
    rw [← hlen] at this
    linarith

/-! ### C7: render ordering -/

theorem renderLoop_forall₂ (cfg : Config) :
    ∀ (l : List Branch) (calls : List (List (ℝ × ℝ) × Color)),
      renderLoop cfg l = some calls →
      List.Forall₂ (fun br call =>
        Branch.renderPolygon cfg br = some call.1 ∧
        call.2 = cfg.branch_color.change_magnitude br.depth) l calls := by
  intro l
  induction l with
  | nil =>
    intro calls h
    simp only [renderLoop, Option.some_inj] at h
    rw [← h]
    exact List.Forall₂.nil
  | cons br rest ih =>
    intro calls h
    cases hp : Branch.renderPolygon cfg br with
    | none => simp [renderLoop, hp] at h
    | some poly =>
      cases hr : renderLoop cfg rest with
      | none => simp [renderLoop, hp, hr] at h
      | some cs =>
        simp only [renderLoop, hp, hr, Option.some_inj] at h
        rw [← h]
        exact List.Forall₂.cons ⟨hp, rfl⟩ (ih cs hr)

/-- C7 (amended): provided the whole render succeeds (no branch hits the
degenerate-geometry error path), `render` draws the collected branches —
self plus full subtree, each exactly once (the sorted list is a permutation
of the collected list, whose length is the subtree size) — in non-increasing
order of `depth`, issuing exactly one draw call per branch in that order,
each filled with `branch_color` scaled by that branch's own depth. -/
theorem claim7_render_order (cfg : Config) (b : Branch)
    (calls : List (List (ℝ × ℝ) × Color)) (h : Branch.render cfg b = some calls) :
    (Branch.renderOrder b).Perm b.collect ∧
    b.collect.length = b.size ∧
    List.Sorted depthGE (Branch.renderOrder b) ∧
    List.Forall₂ (fun br call =>
      Branch.renderPolygon cfg br = some call.1 ∧
      call.2 = cfg.branch_color.change_magnitude br.depth)
      (Branch.renderOrder b) calls :=
  ⟨List.perm_insertionSort depthGE b.collect, Branch.collect_length b,
    List.sorted_insertionSort depthGE b.collect,
    renderLoop_forall₂ cfg (Branch.renderOrder b) calls h⟩

/-! ### C9: termination bound -/

/-- C9: generation terminates; concretely, if
`base_thickness · decay^n ≤ min_thickness` for some `n ≥ 1` then the tree
has at most `n` levels, and with decay 0.8, threshold 1 and root thickness
20 at most 14 levels (⌈log(1/20)/log 0.8⌉ = 14). -/
theorem claim9_termination (cfg : Config) (b : Branch) (hG : Generated cfg b) :
    (∀ n : ℕ, 1 ≤ n →
      b.base_thickness * cfg.thickness_decay ^ n ≤ cfg.min_thickness →
      b.height ≤ n) ∧
    (cfg.thickness_decay = 0.8 → cfg.min_thickness = 1 → b.base_thickness = 20 →
      b.height ≤ 14) := by
  refine ⟨fun n hn hle => generated_height_le cfg n hn b hG hle, ?_⟩
  intro hd hm hb
  apply generated_height_le cfg 14 (by omega) b hG
  rw [hd, hm, hb]
  norm_num

/-! ### Concrete generated trees for witnesses -/

theorem generated_exampleLeaf : Generated exampleCfg exampleLeaf := by
  refine Generated.mk exampleLeaf ⟨?_, ?_, ?_⟩ ⟨0, le_refl 0, le_refl 0, ?_⟩ ?_ ?_
  · simp only [exampleLeaf, exampleCfg, Branch.end_thickness, Branch.base_thickness]
    norm_num
  · simp only [exampleLeaf, exampleCfg, Branch.mid_thickness, Branch.end_thickness]
    norm_num
  · simp only [exampleLeaf, Branch.end_point, Branch.starting_point, Branch.length,
      Branch.rotation, Point.transform, Real.cos_zero, Real.sin_zero]
    norm_num
  · simp [exampleLeaf, Branch.children]
  · intro c hc
    simp [exampleLeaf, Branch.children] at hc
  · intro c hc
    simp [exampleLeaf, Branch.children] at hc

theorem generated_exampleSmall : Generated exampleCfg exampleSmall := by
  refine Generated.mk exampleSmall ⟨?_, ?_, ?_⟩ ⟨0, le_refl 0, le_refl 0, ?_⟩ ?_ ?_
  · simp only [exampleSmall, exampleCfg, Branch.end_thickness, Branch.base_thickness]
    norm_num
  · simp only [exampleSmall, exampleCfg, Branch.mid_thickness, Branch.end_thickness]
    norm_num
  · simp only [exampleSmall, Branch.end_point, Branch.starting_point, Branch.length,
      Branch.rotation, Point.transform, Real.cos_zero, Real.sin_zero]
    norm_num
  · simp [exampleSmall, Branch.children]
  · intro c hc
    simp [exampleSmall, Branch.children] at hc
  · intro c hc
    simp [exampleSmall, Branch.children] at hc

/-- Witness for C4 at a concrete generated tree. -/
theorem claim4_witness :
    Generated exampleCfg exampleLeaf ∧
    exampleLeaf ∈ exampleLeaf.collect ∧
    (exampleLeaf.end_thickness = exampleLeaf.base_thickness * exampleCfg.thickness_decay ∧
     exampleLeaf.mid_thickness =
       exampleLeaf.end_thickness * exampleCfg.mid_thickness_multiplier ∧
     exampleLeaf.end_point =
       exampleLeaf.starting_point.transform exampleLeaf.length exampleLeaf.rotation) := by
  have hmem : exampleLeaf ∈ exampleLeaf.collect := by
    unfold exampleLeaf
    rw [Branch.collect_eq]
    exact List.mem_cons_self _ _
  exact ⟨generated_exampleLeaf, hmem,
    claim4_branch_invariant exampleCfg exampleLeaf generated_exampleLeaf exampleLeaf hmem⟩

/-- Witness for C5 at a concrete generated branch whose end thickness is
below the threshold. -/
theorem claim5_witness :
    Generated exampleCfg exampleSmall ∧
    exampleSmall.end_thickness ≤ exampleCfg.min_thickness ∧
    exampleSmall.children = [] := by
  have hle : exampleSmall.end_thickness ≤ exampleCfg.min_thickness := by
    simp only [exampleSmall, exampleCfg, Branch.end_thickness]
    norm_num
  exact ⟨generated_exampleSmall, hle,
    (claim5_child_rules exampleCfg exampleSmall generated_exampleSmall).2.1 hle⟩

/-- Witness for C9 at the concrete configuration of `main` (decay 0.8,
threshold 1, root thickness 20). -/
theorem claim9_witness :
    Generated exampleCfg exampleLeaf ∧
    exampleCfg.thickness_decay = 0.8 ∧ exampleCfg.min_thickness = 1 ∧
    exampleLeaf.base_thickness = 20 ∧ exampleLeaf.height ≤ 14 :=
  ⟨generated_exampleLeaf, rfl, rfl, rfl,
    (claim9_termination exampleCfg exampleLeaf generated_exampleLeaf).2 rfl rfl rfl⟩

/-! ### C6: the outline polygon -/

theorem Circle.sample_points_length {c : Circle} {p1 p2 : Point} {res : ℕ}
    {l : List (ℝ × ℝ)} (h : c.sample_points_between p1 p2 res = some l) :
    l.length = res - 1 := by
  cases h1 : c.get_angle p1 with
  | none => simp [Circle.sample_points_between, h1] at h
  | some a1 =>
    cases h2 : c.get_angle p2 with
    | none => simp [Circle.sample_points_between, h1, h2] at h
    | some a2 =>
      rw [Circle.sample_points_eq h1 h2, Option.some_inj] at h
      rw [← h]
      simp

/-- C6: a successfully rendered outline polygon is exactly the claimed
sequence: base_right, base_left, the `r - 1` left-arc samples from base_left
to tail_left, tail_left, tail_right, the `r - 1` right-arc samples from
tail_right to base_right; the six boundary points are the three centerline
stations offset by half the local thickness at rotation ± π/2, and the right
circle is fitted through (tail_right, mid_right, base_right). -/
theorem claim6_outline (cfg : Config) (b : Branch) (l : List (ℝ × ℝ))
    (h : Branch.renderPolygon cfg b = some l) :
    ∃ lc rc sl sr,
      Circle.from_3_points
        (b.starting_point.transform (b.base_thickness / 2) (b.rotation + Real.pi / 2))
        ((b.starting_point.transform (b.length / 2) b.rotation).transform
          (b.mid_thickness / 2) (b.rotation + Real.pi / 2))
        (b.end_point.transform (b.end_thickness / 2) (b.rotation + Real.pi / 2)) = some lc ∧
      Circle.from_3_points
        (b.end_point.transform (b.end_thickness / 2) (b.rotation - Real.pi / 2))
        ((b.starting_point.transform (b.length / 2) b.rotation).transform
          (b.mid_thickness / 2) (b.rotation - Real.pi / 2))
        (b.starting_point.transform (b.base_thickness / 2) (b.rotation - Real.pi / 2)) =
        some rc ∧
      lc.sample_points_between
        (b.starting_point.transform (b.base_thickness / 2) (b.rotation + Real.pi / 2))
        (b.end_point.transform (b.end_thickness / 2) (b.rotation + Real.pi / 2))
        cfg.curve_resolution = some sl ∧
      rc.sample_points_between
        (b.end_point.transform (b.end_thickness / 2) (b.rotation - Real.pi / 2))
        (b.starting_point.transform (b.base_thickness / 2) (b.rotation - Real.pi / 2))
        cfg.curve_resolution = some sr ∧
      sl.length = cfg.curve_resolution - 1 ∧
      sr.length = cfg.curve_resolution - 1 ∧
      l = [(b.starting_point.transform (b.base_thickness / 2)
              (b.rotation - Real.pi / 2)).to_tuple,
           (b.starting_point.transform (b.base_thickness / 2)
              (b.rotation + Real.pi / 2)).to_tuple] ++ sl ++
          [(b.end_point.transform (b.end_thickness / 2)
              (b.rotation + Real.pi / 2)).to_tuple,
           (b.end_point.transform (b.end_thickness / 2)
              (b.rotation - Real.pi / 2)).to_tuple] ++ sr := by
  simp only [Branch.renderPolygon, Option.bind_eq_bind, Option.bind_eq_some,
    Option.some.injEq] at h
  obtain ⟨lc, hlc, rc, hrc, sl, hsl, sr, hsr, hl⟩ := h
  exact ⟨lc, rc, sl, sr, hlc, hrc, hsl, hsr,
    Circle.sample_points_length hsl, Circle.sample_points_length hsr, hl.symm⟩

/-- Concrete evaluation of the outline polygon of `exampleBranch6`. -/
theorem renderPolygon_exampleBranch6 :
    Branch.renderPolygon exampleCfg6 exampleBranch6 =
      some [((0 : ℝ), (-1 : ℝ)), (0, 1), (2, 1 / 2), (2, -(1 / 2))] := by
  simp only [Branch.renderPolygon, exampleBranch6, exampleCfg6,
    Branch.starting_point, Branch.base_thickness, Branch.rotation, Branch.length,
    Branch.mid_thickness, Branch.end_point, Branch.end_thickness, Point.transform,
    Point.to_tuple, zero_add, zero_sub, Real.cos_pi_div_two, Real.sin_pi_div_two,
    Real.cos_neg, Real.sin_neg, Real.cos_zero, Real.sin_zero]
  norm_num [Circle.from_3_points, Circle.calculate_factor,
    Circle.sample_points_between, Circle.get_angle, Option.bind_eq_bind]

/-- Witness for C6: a fully concrete branch (base 2, length 2, rotation 0,
resolution 1) whose outline polygon renders successfully. -/
theorem claim6_witness :
    Branch.renderPolygon exampleCfg6 exampleBranch6 =
      some [((0 : ℝ), (-1 : ℝ)), (0, 1), (2, 1 / 2), (2, -(1 / 2))] ∧
    ∃ lc rc sl sr,
      Circle.from_3_points
        (exampleBranch6.starting_point.transform (exampleBranch6.base_thickness / 2)
          (exampleBranch6.rotation + Real.pi / 2))
        ((exampleBranch6.starting_point.transform (exampleBranch6.length / 2)
            exampleBranch6.rotation).transform
          (exampleBranch6.mid_thickness / 2) (exampleBranch6.rotation + Real.pi / 2))
        (exampleBranch6.end_point.transform (exampleBranch6.end_thickness / 2)
          (exampleBranch6.rotation + Real.pi / 2)) = some lc ∧
      Circle.from_3_points
        (exampleBranch6.end_point.transform (exampleBranch6.end_thickness / 2)
          (exampleBranch6.rotation - Real.pi / 2))
        ((exampleBranch6.starting_point.transform (exampleBranch6.length / 2)
            exampleBranch6.rotation).transform
          (exampleBranch6.mid_thickness / 2) (exampleBranch6.rotation - Real.pi / 2))
        (exampleBranch6.starting_point.transform (exampleBranch6.base_thickness / 2)
          (exampleBranch6.rotation - Real.pi / 2)) = some rc ∧
      lc.sample_points_between
        (exampleBranch6.starting_point.transform (exampleBranch6.base_thickness / 2)
          (exampleBranch6.rotation + Real.pi / 2))
        (exampleBranch6.end_point.transform (exampleBranch6.end_thickness / 2)
          (exampleBranch6.rotation + Real.pi / 2))
        exampleCfg6.curve_resolution = some sl ∧
      rc.sample_points_between
        (exampleBranch6.end_point.transform (exampleBranch6.end_thickness / 2)
          (exampleBranch6.rotation - Real.pi / 2))
        (exampleBranch6.starting_point.transform (exampleBranch6.base_thickness / 2)
          (exampleBranch6.rotation - Real.pi / 2))
        exampleCfg6.curve_resolution = some sr ∧
      sl.length = exampleCfg6.curve_resolution - 1 ∧
      sr.length = exampleCfg6.curve_resolution - 1 ∧
      [((0 : ℝ), (-1 : ℝ)), (0, 1), (2, 1 / 2), (2, -(1 / 2))] =
        [(exampleBranch6.starting_point.transform (exampleBranch6.base_thickness / 2)
            (exampleBranch6.rotation - Real.pi / 2)).to_tuple,
         (exampleBranch6.starting_point.transform (exampleBranch6.base_thickness / 2)
            (exampleBranch6.rotation + Real.pi / 2)).to_tuple] ++ sl ++
        [(exampleBranch6.end_point.transform (exampleBranch6.end_thickness / 2)
            (exampleBranch6.rotation + Real.pi / 2)).to_tuple,
         (exampleBranch6.end_point.transform (exampleBranch6.end_thickness / 2)
            (exampleBranch6.rotation - Real.pi / 2)).to_tuple] ++ sr := by
  exact ⟨renderPolygon_exampleBranch6,
    claim6_outline exampleCfg6 exampleBranch6 _ renderPolygon_exampleBranch6⟩

/-! ### C7: counterexample and witness for the fail-fast render -/

theorem generated_exampleBranch7 : Generated exampleCfg6 exampleBranch7 := by
  refine Generated.mk exampleBranch7 ⟨?_, ?_, ?_⟩ ⟨0, le_refl 0, le_refl 0, ?_⟩ ?_ ?_
  · simp only [exampleBranch7, exampleCfg6, Branch.end_thickness, Branch.base_thickness]
    norm_num
  · simp only [exampleBranch7, exampleCfg6, Branch.mid_thickness, Branch.end_thickness]
    norm_num
  · simp only [exampleBranch7, Branch.end_point, Branch.starting_point, Branch.length,
      Branch.rotation, Point.transform, Real.cos_zero, Real.sin_zero]
    norm_num
  · simp [exampleBranch7, Branch.children]
  · intro c hc
    simp [exampleBranch7, Branch.children] at hc
  · intro c hc
    simp [exampleBranch7, Branch.children] at hc

/-- The zero-thickness branch's left-side boundary points are collinear, so
its `_render` divides by zero: the outline fails. -/
theorem renderPolygon_exampleBranch7 :
    Branch.renderPolygon exampleCfg6 exampleBranch7 = none := by
  simp only [Branch.renderPolygon, exampleBranch7, exampleCfg6,
    Branch.starting_point, Branch.base_thickness, Branch.rotation, Branch.length,
    Branch.mid_thickness, Branch.end_point, Branch.end_thickness, Point.transform,
    Point.to_tuple, zero_add, zero_sub, Real.cos_pi_div_two, Real.sin_pi_div_two,
    Real.cos_neg, Real.sin_neg, Real.cos_zero, Real.sin_zero]
  norm_num [Circle.from_3_points, Circle.calculate_factor, Option.bind_eq_bind]

theorem renderOrder_exampleBranch7 :
    Branch.renderOrder exampleBranch7 = [exampleBranch7] := by
  have hcollect : exampleBranch7.collect = [exampleBranch7] := by
    rw [show exampleBranch7 = Branch.mk 0 2 ⟨0, 0⟩ 0 0 0 0 ⟨2, 0⟩ [] from rfl,
      Branch.collect_eq]
    simp
  rw [Branch.renderOrder, hcollect]
  rfl

/-- Counterexample to C7 as stated: on this generated single-branch tree the
degenerate circle fit raises inside `_render`, the draw loop aborts, and no
draw call at all is issued — not one per collected branch. -/
theorem claim7_counterexample :
    Generated exampleCfg6 exampleBranch7 ∧
    exampleBranch7.collect.length = 1 ∧
    Branch.render exampleCfg6 exampleBranch7 = none := by
  refine ⟨generated_exampleBranch7, ?_, ?_⟩
  · rw [show exampleBranch7 = Branch.mk 0 2 ⟨0, 0⟩ 0 0 0 0 ⟨2, 0⟩ [] from rfl,
      Branch.collect_eq]
    simp
  · rw [Branch.render, renderOrder_exampleBranch7]
    simp [renderLoop, renderPolygon_exampleBranch7]

/-- Witness for C7 at a concrete tree whose single branch renders
successfully. -/
theorem claim7_witness :
    ∃ calls, Branch.render exampleCfg6 exampleBranch6 = some calls ∧
      (Branch.renderOrder exampleBranch6).Perm exampleBranch6.collect ∧
      exampleBranch6.collect.length = exampleBranch6.size ∧
      List.Sorted depthGE (Branch.renderOrder exampleBranch6) ∧
      List.Forall₂ (fun br call =>
        Branch.renderPolygon exampleCfg6 br = some call.1 ∧
        call.2 = exampleCfg6.branch_color.change_magnitude br.depth)
        (Branch.renderOrder exampleBranch6) calls := by
  have horder : Branch.renderOrder exampleBranch6 = [exampleBranch6] := by
    have hcollect : exampleBranch6.collect = [exampleBranch6] := by
      rw [show exampleBranch6 = Branch.mk 2 2 ⟨0, 0⟩ 0 0 1 1 ⟨2, 0⟩ [] from rfl,
        Branch.collect_eq]
      simp
    rw [Branch.renderOrder, hcollect]
    rfl
  have hcalls : Branch.render exampleCfg6 exampleBranch6 =
      some [([((0 : ℝ), (-1 : ℝ)), (0, 1), (2, 1 / 2), (2, -(1 / 2))],
        exampleCfg6.branch_color.change_magnitude exampleBranch6.depth)] := by
    rw [Branch.render, horder]
    simp [renderLoop, renderPolygon_exampleBranch6]
  exact ⟨_, hcalls, claim7_render_order exampleCfg6 exampleBranch6 _ hcalls⟩

end PrettyTrees
